import Mathlib

/-!
Verification of the chadtree state-transition engine (src/chadtree/transitions.py).

Filesystem paths are modelled as lists of path components (the filesystem root
is the empty list).  Python sets become Finset, Python dicts become association
lists, and each asynchronous handler becomes a pure function taking its
external inputs (cursor node, user confirmation answers, filesystem-existence
oracle, success of the filesystem call) as explicit parameters, returning the
optional next state together with a trace of the observable side effects.

The helper module functions that the handlers import from elsewhere in the
repository (ancestors, is_parent, unify_ancestors from the fs module, and the
forward reducer from the state module) are not part of the provided sources;
they are modelled from the specification, as marked on each definition.
-/

namespace Chadtree

abbrev Path := List String

abbrev FilterPattern := String

abbrev VCStatus := List (Path × String)

/-- The os.path.dirname of a component-list path: drop the last component. -/
def dirname (p : Path) : Path := p.dropLast

/-- The os.path.basename as a component list: the last component, if any. -/
def basenameL (p : Path) : Path := p.drop (p.length - 1)

/-- The os.path.join of a directory and a relative component-list path. -/
def joinP (parent child : Path) : Path := parent ++ child

/-- Modelled from the spec: is_parent (fs module, not in src/) is the
"strict or equal containment test" between a candidate parent path and a
child path; on component lists this is the prefix test. -/
def is_parent (parent child : Path) : Bool := parent.isPrefixOf child

/-- Modelled from the spec: ancestors (fs module, not in src/) returns
"every proper ancestor of path up to (not including) the filesystem root";
on component lists these are the nonempty strict prefixes. -/
def ancestors (p : Path) : Finset Path :=
  (((List.range p.length).map (fun n => p.take n)).filter (fun a => a ≠ [])).toFinset

/-- Modelled from the spec: unify_ancestors (fs module, not in src/) returns
"the minimal subset such that no returned path is an ancestor of another
returned path": the members of S having no proper ancestor inside S. -/
def unify_ancestors (S : Finset Path) : Finset Path :=
  S.filter (fun p => ∀ a ∈ S, is_parent a p = true → a = p)

/-- Symmetric difference of two path sets, the Python set xor operator. -/
def symmDiffF (a b : Finset Path) : Finset Path := (a \ b) ∪ (b \ a)

/-- Membership in the union of the descendant sets of a path set: q lies in
the subtree of some member of S. -/
def inDescendants (S : Finset Path) (q : Path) : Prop :=
  ∃ p ∈ S, is_parent p q = true

/-- One tree node as the handlers see it: its path and the mode flags the
transition code inspects (Mode.folder, Mode.orphan_link). -/
structure Node where
  path : Path
  isFolder : Bool
  isOrphanLink : Bool
deriving DecidableEq

/-- The engine state fields the transition handlers read and write.  The
derived paths_lookup rendering is not part of this model; whether the forward
reducer would rebuild it is tracked separately by forward_rebuilds. -/
structure State where
  root : Path
  index : Finset Path
  selection : Finset Path
  filter_pattern : Option FilterPattern
  show_hidden : Bool
  follow : Bool
  enable_vc : Bool
  vc : VCStatus
  width : Int
  current : Option Path
  qf : List Path
deriving DecidableEq

/-- A partial update passed to the forward reducer: none means the keyword
was not supplied, some v means it was supplied with value v.  For
filter_pattern and current the supplied value is itself optional, so an
explicit clear (some none) is distinct from no update (none). -/
structure Update where
  root : Option Path
  index : Option (Finset Path)
  selection : Option (Finset Path)
  filter_pattern : Option (Option FilterPattern)
  show_hidden : Option Bool
  follow : Option Bool
  enable_vc : Option Bool
  vc : Option VCStatus
  width : Option Int
  current : Option (Option Path)
  qf : Option (List Path)
  paths : Option (Finset Path)

/-- The empty update: no field supplied. -/
def Update.empty : Update :=
  ⟨none, none, none, none, none, none, none, none, none, none, none, none⟩

/-- Modelled from the spec: forward (state module, not in src/) merges a
partial update into the previous state, fields not supplied retaining their
previous value, and, per clause (b) of its contract, forces selection to
empty when filter_pattern became non-empty in the merge (was empty before,
non-empty after).  The derived paths_lookup field is outside this model. -/
def forward (s : State) (u : Update) : State :=
  let filter_pattern := u.filter_pattern.getD s.filter_pattern
  let selection0 := u.selection.getD s.selection
  let selection :=
    if s.filter_pattern = none ∧ filter_pattern ≠ none then (∅ : Finset Path)
    else selection0
  { root := u.root.getD s.root
    index := u.index.getD s.index
    selection := selection
    filter_pattern := filter_pattern
    show_hidden := u.show_hidden.getD s.show_hidden
    follow := u.follow.getD s.follow
    enable_vc := u.enable_vc.getD s.enable_vc
    vc := u.vc.getD s.vc
    width := u.width.getD s.width
    current := u.current.getD s.current
    qf := u.qf.getD s.qf }

/-- Modelled from the spec: clause (a) of the forward contract invokes the
tree Cartographer (rebuilding nodes and recomputing paths_lookup) exactly
when root, index, filter_pattern or show_hidden changed in the merge. -/
def forward_rebuilds (s : State) (u : Update) : Bool :=
  decide (u.root.getD s.root ≠ s.root) ||
  decide (u.index.getD s.index ≠ s.index) ||
  decide (u.filter_pattern.getD s.filter_pattern ≠ s.filter_pattern) ||
  decide (u.show_hidden.getD s.show_hidden ≠ s.show_hidden)

/-- Observable side effects of the mutating handlers: the confirmation and
replacement prompts, the filesystem calls handed to the collaborators, error
reports, and buffer kills.  Read-only host queries are not traced. -/
inductive Eff where
  | confirmPrompt (entries : Multiset Path)
  | confirmOps (ops : Finset (Path × Path))
  | promptReplace (colliding : Finset (Path × Path))
  | fsDelete (paths : Finset Path)
  | fsAction (ops : Finset (Path × Path))
  | fsRename (src dst : Path)
  | fsNew (p : Path)
  | reportError
  | errorExists (ops : Finset (Path × Path))
  | errorAlreadyExists (p : Path)
  | errorNothingSelected
  | killBuffers (paths : Finset Path)
deriving DecidableEq

/-- Does an effect call a mutating filesystem collaborator? -/
def Eff.isMutation : Eff → Bool
  | .fsDelete _ => true
  | .fsAction _ => true
  | .fsRename _ _ => true
  | .fsNew _ => true
  | _ => false

/-- Embedding of transitions._display_path: the path relative to the root of
the state.  The textual decorations (trailing separator for directories,
newline escaping) do not change the identity or number of entries and are
omitted. -/
def _display_path (root p : Path) : Path :=
  if root.isPrefixOf p then p.drop root.length else p

/-- Embedding of transitions._open_file.  The mime inspection and the user
reply are host inputs: needsWarn is whether the mime type is warn-listed with
a non-exempt extension, userResp the confirmation answer. -/
def _open_file (s : State) (path : Path) (needsWarn userResp : Bool) :
    Option State :=
  let ans := if needsWarn then userResp else true
  if ans then
    some (forward s { Update.empty with current := some (some path) })
  else none

/-- Embedding of transitions._click: dead links are rejected, folders toggle
their path in index by symmetric difference unless a filter is active, files
are opened via _open_file. -/
def _click (s : State) (node : Option Node) (needsWarn userResp : Bool) :
    Option State :=
  match node with
  | none => none
  | some n =>
    if n.isOrphanLink then none
    else if n.isFolder then
      if s.filter_pattern.isSome then none
      else
        let paths : Finset Path := {n.path}
        let index := symmDiffF s.index paths
        some (forward s { Update.empty with index := some index, paths := some paths })
    else _open_file s n.path needsWarn userResp

/-- Embedding of transitions.c_collapse: collapse the folder at the cursor
node (or the parent directory of a file node); refuses the root; removes the
collapsed path and every path it contains from index. -/
def c_collapse (s : State) (node : Option Node) : Option State :=
  match node with
  | none => none
  | some n =>
    let path := if n.isFolder then n.path else dirname n.path
    if path ≠ s.root then
      let paths := s.index.filter (fun i => i = path ∨ is_parent path i = true)
      let index := s.index \ paths
      some (forward s { Update.empty with index := some index, paths := some paths })
    else none

/-- Embedding of transitions._current: if the supplied buffer path lies under
the root, force-expand its ancestors when follow is on and record it as
current; otherwise no transition. -/
def _current (s : State) (current : Path) : Option State :=
  if is_parent s.root current then
    let paths : Finset Path := if s.follow then ancestors current else ∅
    let index := s.index ∪ paths
    some (forward s
      { Update.empty with
          index := some index
          paths := some paths
          current := some (some current) })
  else none

/-- Embedding of transitions.a_follow: with the host buffer name as input, a
falsy (empty) name yields no transition, otherwise defer to _current. -/
def a_follow (s : State) (name : Path) : Option State :=
  if name ≠ [] then _current s name else none

/-- Update supplied to forward by transitions._resize. -/
def resize_update (s : State) (direction : Int → Int → Int) : Update :=
  { Update.empty with width := some (max (direction s.width 10) 1) }

/-- Embedding of transitions._resize: clamp the stepped width at 1. -/
def _resize (s : State) (direction : Int → Int → Int) : State :=
  forward s (resize_update s direction)

/-- Embedding of transitions.c_bigger. -/
def c_bigger (s : State) : State := _resize s (fun a b => a + b)

/-- Embedding of transitions.c_smaller. -/
def c_smaller (s : State) : State := _resize s (fun a b => a - b)

/-- Embedding of transitions.c_new_filter: the user reply (none models both a
cancelled and an empty reply being falsy in the source) replaces the filter
pattern and the selection is explicitly cleared. -/
def c_new_filter (s : State) (resp : Option String) : State :=
  let filter_pattern : Option FilterPattern :=
    match resp with
    | some pattern => if pattern ≠ "" then some pattern else none
    | none => none
  forward s
    { Update.empty with
        selection := some ∅
        filter_pattern := some filter_pattern }

/-- Embedding of transitions.c_clear_filter: only the filter pattern is
supplied to forward, as an explicit clear. -/
def c_clear_filter (s : State) : State :=
  forward s { Update.empty with filter_pattern := some none }

/-- Embedding of transitions.c_clear_selection. -/
def c_clear_selection (s : State) : State :=
  forward s { Update.empty with selection := some ∅ }

/-- Host-side inputs consumed by transitions._refresh: the current buffer
name, the filesystem existence oracle and the freshly queried quickfix and
version-control overlays. -/
structure RefreshEnv where
  currentBuf : Path
  existsP : Path → Bool
  qf : List Path
  vc : VCStatus

/-- Embedding of transitions._refresh: drop vanished paths from index and
selection, re-add the root, follow the current buffer if enabled, and fold
the fresh overlays into the state. -/
def _refresh (s : State) (env : RefreshEnv) : State :=
  let cwd := s.root
  let paths : Finset Path := {cwd}
  let new_current : Option Path :=
    if is_parent cwd env.currentBuf then some env.currentBuf else none
  let index := s.index.filter (fun i => env.existsP i = true) ∪ paths
  let selection :=
    if s.filter_pattern.isSome then (∅ : Finset Path)
    else s.selection.filter (fun x => env.existsP x = true)
  let current_paths : Finset Path :=
    if s.follow then ancestors env.currentBuf else ∅
  let new_index := if new_current.isSome then index else index ∪ current_paths
  forward s
    { Update.empty with
        index := some new_index
        selection := some selection
        qf := some env.qf
        vc := some env.vc
        paths := some paths
        current := new_current.map some }

/-- Embedding of transitions._delete (shared by c_delete and c_trash, which
differ only in the remove/trash collaborator passed as yeet): operate on the
selection when non-empty, else on the cursor or visual-range paths; unify
ancestors; confirm with one display entry per unified path; on refusal do
nothing; on filesystem failure report and fall back to a full refresh; on
success clear the selection and kill the buffers of the targets. -/
def _delete (s : State) (cursorPaths : Finset Path) (ans : Bool) (fsOk : Bool)
    (env : RefreshEnv) : Option State × List Eff :=
  let selection := if s.selection = ∅ then cursorPaths else s.selection
  let unified := unify_ancestors selection
  if unified ≠ ∅ then
    let display : Multiset Path := unified.val.map (_display_path s.root)
    if ans then
      if fsOk then
        let paths := unified.image dirname
        let st := forward s
          { Update.empty with selection := some ∅, paths := some paths }
        (some st,
          [Eff.confirmPrompt display, Eff.fsDelete unified,
            Eff.killBuffers selection])
      else
        (some (_refresh s env),
          [Eff.confirmPrompt display, Eff.fsDelete unified, Eff.reportError])
    else (none, [Eff.confirmPrompt display])
  else (none, [])

/-- Embedding of transitions._find_dest: the destination joins the basename
of the source onto the cursor node when it is a folder, else onto the parent
directory of the cursor node. -/
def _find_dest (src : Path) (node : Node) : Path :=
  let name := basenameL src
  let parent := if node.isFolder then node.path else dirname node.path
  joinP parent name

/-- Host-side inputs consumed by transitions._operation: the filesystem
existence oracle, the replacement destination the user offers for each
colliding source (none is a declined prompt), the bulk confirmation answer,
and whether the filesystem call succeeds. -/
structure OpEnv where
  existsP : Path → Bool
  replace : Path → Option Path
  confirm : Bool
  fsOk : Bool

/-- The initial operation mapping of transitions._operation: each unified
selected source paired with its computed destination. -/
def op_ops0 (s : State) (n : Node) : Finset (Path × Path) :=
  (unify_ancestors s.selection).image (fun src => (src, _find_dest src n))

/-- The colliding entries of the initial mapping: those whose destination
already exists on disk. -/
def op_pre0 (s : State) (n : Node) (env : OpEnv) : Finset (Path × Path) :=
  (op_ops0 s n).filter (fun pr => env.existsP pr.2 = true)

/-- The operation mapping after the replacement prompts: each colliding
source is reassigned the destination the user offered. -/
def op_ops1 (s : State) (n : Node) (env : OpEnv) : Finset (Path × Path) :=
  (op_ops0 s n).image (fun pr =>
    if env.existsP pr.2 = true then
      match env.replace pr.1 with
      | some nd => (pr.1, nd)
      | none => pr
    else pr)

/-- The entries still colliding after the replacement prompts. -/
def op_pre1 (s : State) (n : Node) (env : OpEnv) : Finset (Path × Path) :=
  (op_ops1 s n env).filter (fun pr => env.existsP pr.2 = true)

/-- Embedding of transitions._operation (shared by c_cut and c_copy, which
differ only in the move/copy collaborator passed as action): compute a
destination for every unified selected source relative to the cursor node,
resolve destination collisions through per-source replacement prompts with
whole-batch abort on any decline, re-check for collisions, require one bulk
confirmation, and only then run the filesystem action; on failure report and
fall back to a full refresh, on success expand the touched parents and clear
the selection.  The source iterates the colliding entries of a Python dict
built from a set, so the prompt sequencing within one batch carries no
defined order; the batch of prompts is traced as one set-shaped effect. -/
def _operation (s : State) (node : Option Node) (env : OpEnv)
    (renv : RefreshEnv) : Option State × List Eff :=
  let unified := unify_ancestors s.selection
  match node with
  | some n =>
    if unified ≠ ∅ then
      let pre0 := op_pre0 s n env
      let prompts : List Eff :=
        if pre0 ≠ ∅ then [Eff.promptReplace pre0] else []
      if ∃ pr ∈ pre0, env.replace pr.1 = none then (none, prompts)
      else
        let ops1 := op_ops1 s n env
        let pre1 := op_pre1 s n env
        if pre1 ≠ ∅ then (none, prompts ++ [Eff.errorExists pre1])
        else
          let effs2 := prompts ++ [Eff.confirmOps ops1]
          if env.confirm then
            if env.fsOk then
              let paths :=
                ops1.image (fun pr => dirname pr.1) ∪
                  ops1.image (fun pr => dirname pr.2)
              let index := s.index ∪ paths
              let st := forward s
                { Update.empty with
                    index := some index
                    selection := some ∅
                    paths := some paths }
              (some st, effs2 ++ [Eff.fsAction ops1, Eff.killBuffers s.selection])
            else
              (some (_refresh s renv),
                effs2 ++ [Eff.fsAction ops1, Eff.reportError])
          else (none, effs2)
    else (none, [Eff.errorNothingSelected])
  | none => (none, [Eff.errorNothingSelected])

/-- Embedding of transitions.c_rename: with the cursor node and the path the
user typed (none models both a cancelled and an empty reply), refuse an
existing destination leaving the state as is, rename through the collaborator
reporting failure with a full refresh, and on success expand the old and new
parents. -/
def c_rename (s : State) (node : Option Node) (child : Option Path)
    (existsP : Path → Bool) (fsOk : Bool) (renv : RefreshEnv) :
    Option State × List Eff :=
  match node with
  | some n =>
    let prev_name := n.path
    let parent := s.root
    match child with
    | some c =>
      if c ≠ [] then
        let new_name := joinP parent c
        let new_parent := dirname new_name
        if existsP new_name then (some s, [Eff.errorAlreadyExists new_name])
        else if fsOk then
          let paths := insert parent (insert new_parent (ancestors new_parent))
          let index := s.index ∪ paths
          let st := forward s
            { Update.empty with index := some index, paths := some paths }
          (some st,
            [Eff.fsRename prev_name new_name, Eff.killBuffers {prev_name}])
        else
          (some (_refresh s renv),
            [Eff.fsRename prev_name new_name, Eff.reportError])
      else (none, [])
    | none => (none, [])
  | none => (none, [])

/-- Embedding of transitions.c_new: create a file or folder named by the user
under the cursor node (or the root when there is none), refuse an existing
path leaving the state as is, report failure with a full refresh, and on
success expand the ancestors of the new path and open it. -/
def c_new (s : State) (node : Option Node) (child : Option Path)
    (existsP : Path → Bool) (fsOk : Bool) (needsWarn userResp : Bool)
    (renv : RefreshEnv) : Option State × List Eff :=
  let n := node.getD { path := s.root, isFolder := true, isOrphanLink := false }
  let parent := if n.isFolder then n.path else dirname n.path
  match child with
  | some c =>
    if c ≠ [] then
      let path := joinP parent c
      if existsP path then (some s, [Eff.errorAlreadyExists path])
      else if fsOk then
        let paths := ancestors path
        let index := s.index ∪ paths
        let st := forward s
          { Update.empty with index := some index, paths := some paths }
        (_open_file st path needsWarn userResp, [Eff.fsNew path])
      else (some (_refresh s renv), [Eff.fsNew path, Eff.reportError])
    else (none, [])
  | none => (none, [])

/-- The spec scenario base state: root /proj with index {/proj}, nothing
selected, no filter. -/
def projState : State :=
  { root := ["proj"]
    index := {["proj"]}
    selection := ∅
    filter_pattern := none
    show_hidden := false
    follow := false
    enable_vc := false
    vc := []
    width := 40
    current := none
    qf := [] }

/-- The folder node /proj/src of the click scenario. -/
def srcFolderNode : Node :=
  { path := ["proj", "src"], isFolder := true, isOrphanLink := false }

/-- The delete scenario state: selection is a folder and a file inside it. -/
def deleteScenarioState : State :=
  { projState with selection := {["proj", "dir"], ["proj", "dir", "file.txt"]} }

/-- The cut scenario state: selection is the single file /proj/a.txt. -/
def cutScenarioState : State :=
  { projState with selection := {["proj", "a.txt"]} }

/-- The folder node /proj/dst of the cut scenario. -/
def dstFolderNode : Node :=
  { path := ["proj", "dst"], isFolder := true, isOrphanLink := false }

/-- A quiescent refresh environment used to instantiate the handlers on
concrete inputs. -/
def idleRefreshEnv : RefreshEnv :=
  { currentBuf := [], existsP := fun _ => false, qf := [], vc := [] }

/-- A state with an active filter pattern, used to instantiate the
filtered-click theorem. -/
def filteredState : State :=
  { projState with filter_pattern := some "py" }

/-- A state with follow mode enabled, used to instantiate the follow
theorem. -/
def followState : State :=
  { projState with follow := true }

/-- The cut scenario operation environment: /proj/dst/a.txt already exists on
disk and the user declines the replacement prompt. -/
def collidingEnv : OpEnv :=
  { existsP := fun p => decide (p = ["proj", "dst", "a.txt"])
    replace := fun _ => none
    confirm := true
    fsOk := true }

/- ------------------------------------------------------------------ -/
/- Helper lemmas.                                                      -/
/- ------------------------------------------------------------------ -/

theorem is_parent_iff {a b : Path} : is_parent a b = true ↔ a <+: b :=
  List.isPrefixOf_iff_prefix

theorem is_parent_refl (p : Path) : is_parent p p = true :=
  is_parent_iff.mpr (List.prefix_refl p)

theorem is_parent_trans {a b c : Path} (h1 : is_parent a b = true)
    (h2 : is_parent b c = true) : is_parent a c = true :=
  is_parent_iff.mpr ((is_parent_iff.mp h1).trans (is_parent_iff.mp h2))

theorem length_lt_of_proper_parent {a p : Path} (h : is_parent a p = true)
    (hne : a ≠ p) : a.length < p.length := by
  have hpre := is_parent_iff.mp h
  rcases Nat.lt_or_ge a.length p.length with hlt | hge
  · exact hlt
  · exact absurd (hpre.eq_of_length (Nat.le_antisymm hpre.length_le hge)) hne

theorem mem_unify_ancestors {S : Finset Path} {p : Path} :
    p ∈ unify_ancestors S ↔ p ∈ S ∧ ∀ a ∈ S, is_parent a p = true → a = p := by
  simp [unify_ancestors]

theorem unify_ancestors_subset (S : Finset Path) : unify_ancestors S ⊆ S :=
  Finset.filter_subset _ _

/-- Every member of a path set has a member of its ancestor unification
above it (possibly itself). -/
theorem exists_unify_above (S : Finset Path) (p : Path) (hp : p ∈ S) :
    ∃ m ∈ unify_ancestors S, is_parent m p = true := by
  by_cases h : ∀ a ∈ S, is_parent a p = true → a = p
  · exact ⟨p, mem_unify_ancestors.mpr ⟨hp, h⟩, is_parent_refl p⟩
  · push_neg at h
    obtain ⟨a, haS, hap, hne⟩ := h
    obtain ⟨m, hm, hma⟩ := exists_unify_above S a haS
    exact ⟨m, hm, is_parent_trans hma hap⟩
termination_by p.length
decreasing_by exact length_lt_of_proper_parent hap hne

theorem forward_selection_keep (s : State) (u : Update)
    (h : u.filter_pattern = none) :
    (forward s u).selection = u.selection.getD s.selection := by
  simp only [forward, h, Option.getD_none]
  exact if_neg (fun hc => hc.2 hc.1)

/- ------------------------------------------------------------------ -/
/- Claim theorems.                                                     -/
/- ------------------------------------------------------------------ -/

/-- C2: unify_ancestors contains no two distinct paths where one is an
ancestor of the other, the union of the descendants of its output equals the
union of the descendants of its input, and on the example set containing /a,
/a/b and /c it returns the set containing /a and /c. -/
theorem unify_ancestors_minimal_and_covering :
    (∀ (S : Finset Path), ∀ p ∈ unify_ancestors S, ∀ q ∈ unify_ancestors S,
        p ≠ q → ¬(is_parent p q = true))
    ∧ (∀ (S : Finset Path) (q : Path),
        inDescendants (unify_ancestors S) q ↔ inDescendants S q)
    ∧ unify_ancestors {["a"], ["a", "b"], ["c"]} = {["a"], ["c"]} := by
  refine ⟨?_, ?_, by decide⟩
  · intro S p hp q hq hne hpq
    obtain ⟨hqS, hqmin⟩ := mem_unify_ancestors.mp hq
    exact hne (hqmin p (unify_ancestors_subset S (mem_unify_ancestors.mpr
      (mem_unify_ancestors.mp hp))) hpq)
  · intro S q
    constructor
    · rintro ⟨p, hp, hpq⟩
      exact ⟨p, unify_ancestors_subset S hp, hpq⟩
    · rintro ⟨p, hp, hpq⟩
      obtain ⟨m, hm, hmp⟩ := exists_unify_above S p hp
      exact ⟨m, hm, is_parent_trans hmp hpq⟩

/-- C2 witness: the unification of the example set does not relate its two
distinct members /a and /c by ancestry. -/
theorem unify_ancestors_minimal_and_covering_witness :
    ¬(is_parent ["a"] ["c"] = true) :=
  unify_ancestors_minimal_and_covering.1 {["a"], ["a", "b"], ["c"]}
    ["a"] (by decide) ["c"] (by decide) (by decide)

/-- C1: clicking a folder node with no active filter yields an index that is
the symmetric difference of the previous index with the singleton of the
clicked path, with the selection unchanged; collapsing a folder removes from
index every path that is the collapsed path or a descendant of it; and from
root /proj with index composed of /proj alone, clicking the folder /proj/src
yields index composed of /proj and /proj/src. -/
theorem click_xor_index_collapse_prunes :
    (∀ (s : State) (n : Node) (needsWarn userResp : Bool),
      n.isFolder = true → n.isOrphanLink = false → s.filter_pattern = none →
      ∃ s2, _click s (some n) needsWarn userResp = some s2 ∧
        s2.index = symmDiffF s.index {n.path} ∧ s2.selection = s.selection)
    ∧ (∀ (s : State) (n : Node) (s2 : State),
        c_collapse s (some n) = some s2 →
        ∀ i ∈ s.index,
          (i = (if n.isFolder then n.path else dirname n.path) ∨
            is_parent (if n.isFolder then n.path else dirname n.path) i = true) →
          i ∉ s2.index)
    ∧ _click projState (some srcFolderNode) false false =
        some { projState with index := {["proj"], ["proj", "src"]} } := by
  refine ⟨?_, ?_, by decide⟩
  · intro s n nw ur hf ho hfp
    refine ⟨forward s
      { Update.empty with
          index := some (symmDiffF s.index {n.path})
          paths := some {n.path} }, ?_, ?_, ?_⟩
    · simp [_click, ho, hf, hfp]
    · simp [forward]
    · exact forward_selection_keep s _ rfl
  · intro s n s2 h i hi hip
    simp only [c_collapse] at h
    by_cases hroot :
        (if n.isFolder then n.path else dirname n.path) ≠ s.root
    · rw [if_pos hroot] at h
      obtain rfl := Option.some.inj h
      simp only [forward, Option.getD_some, Finset.mem_sdiff, not_and, not_not]
      intro _
      exact Finset.mem_filter.mpr ⟨hi, hip⟩
    · rw [if_neg hroot] at h
      exact absurd h (by simp)

/-- C1 witness: the click half of the theorem instantiated on the /proj
scenario state and the /proj/src folder node. -/
theorem click_xor_index_collapse_prunes_witness :
    ∃ s2, _click projState (some srcFolderNode) false false = some s2 ∧
      s2.index = symmDiffF projState.index {srcFolderNode.path} ∧
      s2.selection = projState.selection :=
  click_xor_index_collapse_prunes.1 projState srcFolderNode false false
    rfl rfl rfl

/-- C3: the delete and trash handler targets the selection when non-empty and
the cursor or visual-range paths otherwise, its confirmation prompt is the
first traced effect and lists exactly one entry per unified target path, a
non-affirmative confirmation yields no state and no mutating or buffer
killing effect, a successful confirmed run clears the selection, and on the
scenario selection of /proj/dir with /proj/dir/file.txt the unified set is
the singleton /proj/dir whose display list has exactly one entry. -/
theorem delete_unifies_confirms_and_clears :
    (∀ (s : State) (cursorPaths : Finset Path) (ans fsOk : Bool)
        (env : RefreshEnv),
      unify_ancestors (if s.selection = ∅ then cursorPaths else s.selection)
          ≠ ∅ →
      (_delete s cursorPaths ans fsOk env).2.head? =
          some (Eff.confirmPrompt
            ((unify_ancestors
              (if s.selection = ∅ then cursorPaths else s.selection)).val.map
              (_display_path s.root))) ∧
        Multiset.card
            ((unify_ancestors
              (if s.selection = ∅ then cursorPaths else s.selection)).val.map
              (_display_path s.root)) =
          (unify_ancestors
            (if s.selection = ∅ then cursorPaths else s.selection)).card)
    ∧ (∀ (s : State) (cursorPaths : Finset Path) (fsOk : Bool)
          (env : RefreshEnv),
        (_delete s cursorPaths false fsOk env).1 = none ∧
        ∀ e ∈ (_delete s cursorPaths false fsOk env).2,
          e.isMutation = false ∧ ∀ ps, e ≠ Eff.killBuffers ps)
    ∧ (∀ (s : State) (cursorPaths : Finset Path) (env : RefreshEnv)
          (st : State),
        (_delete s cursorPaths true true env).1 = some st →
        st.selection = ∅)
    ∧ (unify_ancestors deleteScenarioState.selection = {["proj", "dir"]} ∧
        Multiset.card ((unify_ancestors deleteScenarioState.selection).val.map
          (_display_path deleteScenarioState.root)) = 1) := by
  refine ⟨?_, ?_, ?_, by decide⟩
  · intro s cursorPaths ans fsOk env h
    refine ⟨?_, by rw [Multiset.card_map]; rfl⟩
    simp only [_delete, if_pos h]
    cases ans <;> cases fsOk <;> rfl
  · intro s cursorPaths fsOk env
    constructor
    · simp only [_delete]
      split <;> split <;> rfl
    · intro e he
      simp only [_delete] at he
      split at he <;> split at he <;>
        simp only [Bool.false_eq_true, if_false, List.mem_singleton,
          List.not_mem_nil] at he
      all_goals first
        | exact absurd he (fun hf => hf)
        | (subst he; exact ⟨rfl, by simp⟩)
  · intro s cursorPaths env st h
    simp only [_delete] at h
    split at h <;> split at h <;> simp at h
    all_goals obtain rfl := h.symm
    all_goals simp [forward]

/-- C3 witness: the confirmation-prompt half of the theorem instantiated on
the delete scenario state, where the unified target set is non-empty. -/
theorem delete_unifies_confirms_and_clears_witness :
    (_delete deleteScenarioState ∅ false true idleRefreshEnv).2.head? =
        some (Eff.confirmPrompt
          ((unify_ancestors
            (if deleteScenarioState.selection = ∅ then ∅
              else deleteScenarioState.selection)).val.map
            (_display_path deleteScenarioState.root))) ∧
      Multiset.card
          ((unify_ancestors
            (if deleteScenarioState.selection = ∅ then ∅
              else deleteScenarioState.selection)).val.map
            (_display_path deleteScenarioState.root)) =
        (unify_ancestors
          (if deleteScenarioState.selection = ∅ then ∅
            else deleteScenarioState.selection)).card :=
  delete_unifies_confirms_and_clears.1 deleteScenarioState ∅ false true
    idleRefreshEnv (by decide)

/-- C4: in the cut and copy handler every selected source is assigned the
destination joining its basename onto the cursor node when that node is a
folder and onto its parent directory otherwise; whenever computed
destinations collide with existing paths the replacement request is the very
first traced effect, before any mutation; a declined replacement for any
colliding source aborts the whole batch with no state change and no mutating
effect; and on the scenario selection /proj/a.txt cut onto the folder
/proj/dst the computed operation maps /proj/a.txt to /proj/dst/a.txt, and
when that destination exists and the prompt is declined the handler returns
no state having traced only the replacement request. -/
theorem operation_dest_collision_abort :
    (∀ (s : State) (n : Node) (pr : Path × Path), pr ∈ op_ops0 s n →
      pr.2 = joinP (if n.isFolder then n.path else dirname n.path)
        (basenameL pr.1))
    ∧ (∀ (s : State) (n : Node) (env : OpEnv) (renv : RefreshEnv),
        op_pre0 s n env ≠ ∅ →
        (_operation s (some n) env renv).2.head? =
          some (Eff.promptReplace (op_pre0 s n env)))
    ∧ (∀ (s : State) (n : Node) (env : OpEnv) (renv : RefreshEnv),
        (∃ src ∈ unify_ancestors s.selection,
          env.existsP (_find_dest src n) = true ∧ env.replace src = none) →
        (_operation s (some n) env renv).1 = none ∧
          ∀ e ∈ (_operation s (some n) env renv).2, e.isMutation = false)
    ∧ (op_ops0 cutScenarioState dstFolderNode =
          {(["proj", "a.txt"], ["proj", "dst", "a.txt"])} ∧
        _operation cutScenarioState (some dstFolderNode) collidingEnv
            idleRefreshEnv =
          (none, [Eff.promptReplace
            {(["proj", "a.txt"], ["proj", "dst", "a.txt"])}])) := by
  refine ⟨?_, ?_, ?_, by decide, by decide⟩
  · intro s n pr hpr
    obtain ⟨src, _, rfl⟩ := Finset.mem_image.mp hpr
    rfl
  · intro s n env renv hpre
    have hunified : unify_ancestors s.selection ≠ ∅ := by
      intro hu
      apply hpre
      simp [op_pre0, op_ops0, hu]
    simp only [_operation, if_pos hunified, if_pos hpre]
    split
    · rfl
    · split
      · rfl
      · split
        · split <;> rfl
        · rfl
  · intro s n env renv hdecl
    obtain ⟨src, hsrc, hex, hrep⟩ := hdecl
    have hguard : ∃ pr ∈ op_pre0 s n env, env.replace pr.1 = none :=
      ⟨(src, _find_dest src n),
        Finset.mem_filter.mpr ⟨Finset.mem_image_of_mem _ hsrc, hex⟩, hrep⟩
    have hunified : unify_ancestors s.selection ≠ ∅ :=
      Finset.ne_empty_of_mem hsrc
    simp only [_operation, if_pos hunified, if_pos hguard]
    refine ⟨by trivial, ?_⟩
    intro e he
    split at he
    · obtain rfl := List.mem_singleton.mp he
      rfl
    · exact absurd he (List.not_mem_nil e)

/-- C4 witness: the abort half of the theorem instantiated on the cut
scenario with the colliding environment. -/
theorem operation_dest_collision_abort_witness :
    (_operation cutScenarioState (some dstFolderNode) collidingEnv
        idleRefreshEnv).1 = none ∧
      ∀ e ∈ (_operation cutScenarioState (some dstFolderNode) collidingEnv
        idleRefreshEnv).2, e.isMutation = false :=
  operation_dest_collision_abort.2.2.1 cutScenarioState dstFolderNode
    collidingEnv idleRefreshEnv ⟨["proj", "a.txt"], by decide, by decide, rfl⟩

/-- C5: for each mutating handler (delete and trash via _delete, rename, new,
cut and copy via _operation), when the filesystem call fails after the user
confirmed, the handler reports the error and returns the state produced by an
unconditional full refresh of the previous state instead of the
normally-computed update. -/
theorem mutation_failure_full_refresh :
    (∀ (s : State) (cursorPaths : Finset Path) (env : RefreshEnv),
      unify_ancestors (if s.selection = ∅ then cursorPaths else s.selection)
          ≠ ∅ →
      (_delete s cursorPaths true false env).1 = some (_refresh s env) ∧
        Eff.reportError ∈ (_delete s cursorPaths true false env).2)
    ∧ (∀ (s : State) (n : Node) (c : Path) (existsP : Path → Bool)
          (renv : RefreshEnv),
        c ≠ [] → existsP (joinP s.root c) = false →
        (c_rename s (some n) (some c) existsP false renv).1 =
            some (_refresh s renv) ∧
          Eff.reportError ∈ (c_rename s (some n) (some c) existsP false renv).2)
    ∧ (∀ (s : State) (node : Option Node) (c : Path) (existsP : Path → Bool)
          (needsWarn userResp : Bool) (renv : RefreshEnv),
        c ≠ [] →
        existsP (joinP
          (if (node.getD ⟨s.root, true, false⟩).isFolder then
            (node.getD ⟨s.root, true, false⟩).path
          else dirname (node.getD ⟨s.root, true, false⟩).path) c) = false →
        (c_new s node (some c) existsP false needsWarn userResp renv).1 =
            some (_refresh s renv) ∧
          Eff.reportError ∈
            (c_new s node (some c) existsP false needsWarn userResp renv).2)
    ∧ (∀ (s : State) (n : Node) (env : OpEnv) (renv : RefreshEnv),
        env.confirm = true → env.fsOk = false →
        unify_ancestors s.selection ≠ ∅ →
        (¬∃ pr ∈ op_pre0 s n env, env.replace pr.1 = none) →
        op_pre1 s n env = ∅ →
        (_operation s (some n) env renv).1 = some (_refresh s renv) ∧
          Eff.reportError ∈ (_operation s (some n) env renv).2) := by
  refine ⟨?_, ?_, ?_, ?_⟩
  · intro s cursorPaths env h
    simp only [_delete, if_pos h]
    exact ⟨rfl, by simp⟩
  · intro s n c existsP renv hc hex
    simp only [c_rename, if_pos hc, hex]
    exact ⟨rfl, by simp⟩
  · intro s node c existsP nw ur renv hc hex
    simp only [c_new, if_pos hc, hex]
    exact ⟨rfl, by simp⟩
  · intro s n env renv hconf hfs hunified hnodecl hpre1
    have hpre1f : ¬(op_pre1 s n env ≠ ∅) := fun hne => hne hpre1
    simp only [_operation, if_pos hunified, if_neg hnodecl, if_neg hpre1f,
      hconf, hfs]
    exact ⟨by trivial, by simp⟩

/-- C5 witness: the delete half of the theorem instantiated on the delete
scenario state with a failing filesystem call. -/
theorem mutation_failure_full_refresh_witness :
    (_delete deleteScenarioState ∅ true false idleRefreshEnv).1 =
        some (_refresh deleteScenarioState idleRefreshEnv) ∧
      Eff.reportError ∈
        (_delete deleteScenarioState ∅ true false idleRefreshEnv).2 :=
  mutation_failure_full_refresh.1 deleteScenarioState ∅ idleRefreshEnv
    (by decide)

theorem forward_width_only (s : State) (w : Int) :
    forward s { Update.empty with width := some w } = { s with width := w } := by
  simp only [forward, Update.empty, Option.getD_none, Option.getD_some]
  rw [if_neg (fun hc => hc.2 hc.1)]

/-- C6: applying the filter-update action with a non-empty pattern yields a
state whose selection is empty, regardless of the prior selection, the
pattern being installed as the new filter. -/
theorem new_filter_clears_selection (s : State) (pattern : String)
    (h : pattern ≠ "") :
    (c_new_filter s (some pattern)).selection = ∅ ∧
      (c_new_filter s (some pattern)).filter_pattern = some pattern := by
  simp [c_new_filter, forward, h]

/-- C6 witness: the theorem instantiated on the /proj scenario state and the
non-empty pattern x. -/
theorem new_filter_clears_selection_witness :
    (c_new_filter projState (some "x")).selection = ∅ ∧
      (c_new_filter projState (some "x")).filter_pattern = some "x" :=
  new_filter_clears_selection projState "x" (by decide)

/-- C7: on a buffer-focus event whose path lies under the root, the next
index is the old index unioned with the ancestors of the path when follow is
enabled and the old index unchanged when follow is disabled, with current set
to the path in both cases; when the path does not lie under the root the
handler produces no state transition. -/
theorem follow_expands_ancestors_sets_current :
    (∀ (s : State) (p : Path), is_parent s.root p = true →
      ∃ s2, _current s p = some s2 ∧
        (s.follow = true → s2.index = s.index ∪ ancestors p) ∧
        (s.follow = false → s2.index = s.index) ∧
        s2.current = some p)
    ∧ (∀ (s : State) (p : Path), is_parent s.root p = false →
        _current s p = none) := by
  constructor
  · intro s p h
    refine ⟨forward s
      { Update.empty with
          index := some (s.index ∪ (if s.follow then ancestors p else ∅))
          paths := some (if s.follow then ancestors p else ∅)
          current := some (some p) }, ?_, ?_, ?_, ?_⟩
    · simp [_current, h]
    · intro hf
      simp [forward, hf]
    · intro hf
      simp [forward, hf]
    · simp [forward]
  · intro s p h
    simp [_current, h]

/-- C7 witness: the under-root half of the theorem instantiated on the
follow-enabled /proj state and the path /proj/src/mod.py. -/
theorem follow_expands_ancestors_sets_current_witness :
    ∃ s2, _current followState ["proj", "src", "mod.py"] = some s2 ∧
      (followState.follow = true →
        s2.index = followState.index ∪ ancestors ["proj", "src", "mod.py"]) ∧
      (followState.follow = false → s2.index = followState.index) ∧
      s2.current = some ["proj", "src", "mod.py"] :=
  follow_expands_ancestors_sets_current.1 followState
    ["proj", "src", "mod.py"] (by decide)

/-- C8: the bigger and smaller resize actions clamp the stepped width at one
from below, change no other field of the state, and trigger no tree
rebuild. -/
theorem resize_clamps_width_only (s : State) :
    (c_bigger s).width = max (s.width + 10) 1 ∧
    (c_smaller s).width = max (s.width - 10) 1 ∧
    1 ≤ (c_bigger s).width ∧ 1 ≤ (c_smaller s).width ∧
    (c_bigger s).root = s.root ∧ (c_bigger s).index = s.index ∧
    (c_bigger s).selection = s.selection ∧
    (c_bigger s).filter_pattern = s.filter_pattern ∧
    (c_bigger s).show_hidden = s.show_hidden ∧
    (c_bigger s).follow = s.follow ∧
    (c_bigger s).enable_vc = s.enable_vc ∧
    (c_bigger s).vc = s.vc ∧
    (c_bigger s).current = s.current ∧
    (c_bigger s).qf = s.qf ∧
    (c_smaller s).root = s.root ∧ (c_smaller s).index = s.index ∧
    (c_smaller s).selection = s.selection ∧
    (c_smaller s).filter_pattern = s.filter_pattern ∧
    (c_smaller s).show_hidden = s.show_hidden ∧
    (c_smaller s).follow = s.follow ∧
    (c_smaller s).enable_vc = s.enable_vc ∧
    (c_smaller s).vc = s.vc ∧
    (c_smaller s).current = s.current ∧
    (c_smaller s).qf = s.qf ∧
    forward_rebuilds s (resize_update s (fun a b => a + b)) = false ∧
    forward_rebuilds s (resize_update s (fun a b => a - b)) = false := by
  have hb : c_bigger s = { s with width := max (s.width + 10) 1 } :=
    forward_width_only s _
  have hs : c_smaller s = { s with width := max (s.width - 10) 1 } :=
    forward_width_only s _
  rw [hb, hs]
  refine ⟨rfl, rfl, le_max_right _ _, le_max_right _ _, rfl, rfl, rfl, rfl,
    rfl, rfl, rfl, rfl, rfl, rfl, rfl, rfl, rfl, rfl, rfl, rfl, rfl, rfl,
    rfl, rfl, ?_, ?_⟩
  · simp [forward_rebuilds, resize_update, Update.empty]
  · simp [forward_rebuilds, resize_update, Update.empty]

/-- C9: clicking a folder node while a filter pattern is active produces no
state transition at all: the handler returns no new state. -/
theorem filtered_folder_click_noop (s : State) (n : Node)
    (needsWarn userResp : Bool) (hf : n.isFolder = true)
    (hp : s.filter_pattern ≠ none) :
    _click s (some n) needsWarn userResp = none := by
  have hsome : s.filter_pattern.isSome = true := Option.isSome_iff_ne_none.mpr hp
  cases ho : n.isOrphanLink <;> simp [_click, hf, ho, hsome]

/-- C9 witness: the theorem instantiated on the filtered /proj state and the
folder node /proj/src. -/
theorem filtered_folder_click_noop_witness :
    _click filteredState (some srcFolderNode) false false = none :=
  filtered_folder_click_noop filteredState srcFolderNode false false rfl
    (by decide)

/-- C10: the clear-filter action sets the filter pattern to none and leaves
the selection and every other state field unchanged. -/
theorem clear_filter_keeps_selection (s : State) :
    (c_clear_filter s).filter_pattern = none ∧
    (c_clear_filter s).selection = s.selection ∧
    (c_clear_filter s).root = s.root ∧
    (c_clear_filter s).index = s.index ∧
    (c_clear_filter s).show_hidden = s.show_hidden ∧
    (c_clear_filter s).follow = s.follow ∧
    (c_clear_filter s).enable_vc = s.enable_vc ∧
    (c_clear_filter s).vc = s.vc ∧
    (c_clear_filter s).width = s.width ∧
    (c_clear_filter s).current = s.current ∧
    (c_clear_filter s).qf = s.qf := by
  simp [c_clear_filter, forward, Update.empty]

end Chadtree
